import Mathlib

/-!
Verification of the breakpoint registry in `src/Breakpoints.ts`.

The TypeScript class `Breakpoints` is embedded shallowly: the breakpoint
configuration object becomes an association list, JS numbers (which here are
integers, the infinities produced by `Math.min`/`Math.max` on empty argument
lists, `NaN`, and `undefined` from failed property lookups) become the
inductive type `JsVal`, and methods that can `throw` return `Except String`.
Helper code from `src/Utils.ts` and `src/Media.ts` is not part of the sources,
so those few definitions are modelled from the specification and marked as
such in their doc comments.
-/

namespace Fresnel

/-- A JavaScript value as it arises in this program: an integer, one of the
two infinities (from `Math.min()`/`Math.max()` with no arguments), `NaN`
(from arithmetic on non-numbers), or `undefined` (from a failed property
lookup). -/
inductive JsVal
  | int (n : Int)
  | posInf
  | negInf
  | nan
  | undefined
  deriving DecidableEq

/-- Numeric coercion as applied by JS arithmetic and `Math.min`/`Math.max`:
`undefined` converts to `NaN`; numbers are unchanged. -/
def JsVal.toNum : JsVal → JsVal
  | .undefined => .nan
  | v => v

/-- JS subtraction restricted to the values occurring in this program. -/
def jsSub : JsVal → JsVal → JsVal
  | .int a, .int b => .int (a - b)
  | .posInf, .int _ => .posInf
  | .negInf, .int _ => .negInf
  | .int _, .posInf => .negInf
  | .int _, .negInf => .posInf
  | .posInf, .negInf => .posInf
  | .negInf, .posInf => .negInf
  | _, _ => .nan

/-- JS strict `<` comparison: any comparison involving `NaN` (or `undefined`,
which converts to `NaN`) is false. -/
def jsLt : JsVal → JsVal → Bool
  | .int a, .int b => decide (a < b)
  | .int _, .posInf => true
  | .negInf, .int _ => true
  | .negInf, .posInf => true
  | _, _ => false

/-- JS `>=` comparison: any comparison involving `NaN`/`undefined` is false. -/
def jsGe : JsVal → JsVal → Bool
  | .int a, .int b => decide (b ≤ a)
  | .posInf, .int _ => true
  | .posInf, .posInf => true
  | .posInf, .negInf => true
  | .int _, .negInf => true
  | .negInf, .negInf => true
  | _, _ => false

/-- One step of `Math.min`: `NaN` is absorbing, otherwise the smaller value. -/
def jsMin2 (a b : JsVal) : JsVal :=
  match a.toNum, b.toNum with
  | .nan, _ => .nan
  | _, .nan => .nan
  | x, y => if jsLt x y then x else y

/-- One step of `Math.max`: `NaN` is absorbing, otherwise the larger value. -/
def jsMax2 (a b : JsVal) : JsVal :=
  match a.toNum, b.toNum with
  | .nan, _ => .nan
  | _, .nan => .nan
  | x, y => if jsLt x y then y else x

/-- `Math.min(...args)`: starts from `Infinity` and folds `jsMin2`. -/
def jsMin (l : List JsVal) : JsVal :=
  l.foldl jsMin2 .posInf

/-- `Math.max(...args)`: starts from `-Infinity` and folds `jsMax2`. -/
def jsMax (l : List JsVal) : JsVal :=
  l.foldl jsMax2 .negInf

/-- How a `JsVal` renders inside a JS template literal. -/
def JsVal.render : JsVal → String
  | .int n => toString n
  | .posInf => "Infinity"
  | .negInf => "-Infinity"
  | .nan => "NaN"
  | .undefined => "undefined"

/-- `Array.prototype.indexOf`: the index of the first occurrence, `-1` when
the element is absent. -/
def jsIndexOf (l : List String) (b : String) : Int :=
  match l with
  | [] => -1
  | x :: xs =>
    if x = b then 0
    else
      let r := jsIndexOf xs b
      if r = -1 then -1 else r + 1

/-- JS array indexing `l[idx]`: `undefined` (here `none`) when out of range. -/
def jsGetStr (l : List String) (idx : Int) : Option String :=
  if idx < 0 then none else l.get? idx.toNat

/-- The breakpoint configuration object passed to the `Breakpoints`
constructor: an insertion-ordered association of breakpoint name to pixel
width (object keys are unique). -/
abbrev BreakpointMap := List (String × Int)

/-- The JS object lookup `this._breakpoints[name]`: `undefined` when the
name is absent. -/
def lookupWidth (bps : BreakpointMap) (name : String) : JsVal :=
  match List.lookup name bps with
  | some w => .int w
  | none => .undefined

/-- The sort relation used by the constructor: ascending by width. The JS
comparator `a[1] < b[1] ? -1 : 1` is a strict total comparator whenever the
widths are pairwise distinct, in which case any comparison sort produces the
same sequence; tie order is implementation-defined in JS and left
unspecified by the spec. -/
def widthLE (a b : String × Int) : Prop :=
  a.2 ≤ b.2

instance : DecidableRel widthLE := fun a b =>
  inferInstanceAs (Decidable (a.2 ≤ b.2))

instance : IsTotal (String × Int) widthLE :=
  ⟨fun a b => Int.le_total a.2 b.2⟩

instance : IsTrans (String × Int) widthLE :=
  ⟨fun _ _ _ h1 h2 => le_trans h1 h2⟩

/-- The name/width pairs sorted ascending by width (the intermediate list in
the constructor before projecting out the names). -/
def sortedPairs (bps : BreakpointMap) : List (String × Int) :=
  List.insertionSort widthLE bps

/-- `this._sortedBreakpoints`: breakpoint names ordered ascending by width. -/
def sortedBreakpoints (bps : BreakpointMap) : List String :=
  (sortedPairs bps).map Prod.fst

/-- The constructor's `betweenCombinations`: for each position `i` in the
sequence with its last element removed, pairs of `sequence[i]` with every
later element of the full sequence. -/
def betweenCombinations (bps : BreakpointMap) : List (String × String) :=
  let sorted := sortedBreakpoints bps
  sorted.dropLast.enum.foldl
    (fun acc p => acc ++ (sorted.drop (p.1 + 1)).map (fun b2 => (p.2, b2)))
    []

/-- The five directive kinds (`Breakpoints.validKeys`). -/
inductive MediaBreakpointKey
  | «at»
  | lessThan
  | greaterThan
  | greaterThanOrEqual
  | between
  deriving DecidableEq

/-- Modelled from the spec: `MediaBreakpointProps` from `src/Media.ts` (not
present under `src/`) — a record with one optional field per directive kind;
a well-formed directive populates exactly one of them. -/
structure MediaBreakpointProps where
  «at» : Option String
  lessThan : Option String
  greaterThan : Option String
  greaterThanOrEqual : Option String
  between : Option (String × String)
  deriving DecidableEq

/-- The directive `at(b)`. -/
def mkAt (b : String) : MediaBreakpointProps :=
  ⟨some b, none, none, none, none⟩

/-- The directive `lessThan(b)`. -/
def mkLessThan (b : String) : MediaBreakpointProps :=
  ⟨none, some b, none, none, none⟩

/-- The directive `greaterThan(b)`. -/
def mkGreaterThan (b : String) : MediaBreakpointProps :=
  ⟨none, none, some b, none, none⟩

/-- The directive `greaterThanOrEqual(b)`. -/
def mkGreaterThanOrEqual (b : String) : MediaBreakpointProps :=
  ⟨none, none, none, some b, none⟩

/-- The directive `between(b1, b2)`. -/
def mkBetween (b1 b2 : String) : MediaBreakpointProps :=
  ⟨none, none, none, none, some (b1, b2)⟩

/-- Modelled from the spec: `propKey` from `src/Utils.ts` (not present under
`src/`) returns the single populated directive kind; the spec requires
exactly one kind to be populated and calls zero or several a caller error,
so an ill-formed value yields no key and reaches the rejecting `default`
branch of the consuming `switch`. -/
def propKey (p : MediaBreakpointProps) : Option MediaBreakpointKey :=
  match p with
  | ⟨some _, none, none, none, none⟩ => some .«at»
  | ⟨none, some _, none, none, none⟩ => some .lessThan
  | ⟨none, none, some _, none, none⟩ => some .greaterThan
  | ⟨none, none, none, some _, none⟩ => some .greaterThanOrEqual
  | ⟨none, none, none, none, some _⟩ => some .between
  | _ => none

/-- Modelled from the spec: the descriptive rendering of an offending
directive value (the `JSON.stringify` call in the source), listing the
populated fields in declaration order. -/
def stringifyProps (p : MediaBreakpointProps) : String :=
  let fields :=
    (match p.«at» with
      | some a => ["\"at\":\"" ++ a ++ "\""]
      | none => []) ++
    (match p.lessThan with
      | some a => ["\"lessThan\":\"" ++ a ++ "\""]
      | none => []) ++
    (match p.greaterThan with
      | some a => ["\"greaterThan\":\"" ++ a ++ "\""]
      | none => []) ++
    (match p.greaterThanOrEqual with
      | some a => ["\"greaterThanOrEqual\":\"" ++ a ++ "\""]
      | none => []) ++
    (match p.between with
      | some pr => ["\"between\":[\"" ++ pr.1 ++ "\",\"" ++ pr.2 ++ "\"]"]
      | none => [])
  "\x7b" ++ String.intercalate "," fields ++ "\x7d"

/-- `Breakpoints._normalizeProps`: a truthy `at` operand is rewritten to
`between(at, next)` when a truthy next breakpoint exists, and to
`greaterThanOrEqual(at)` otherwise; all other props pass through. -/
def normalizeProps (bps : BreakpointMap) (p : MediaBreakpointProps) :
    MediaBreakpointProps :=
  match p.«at» with
  | some a =>
    if a = "" then p
    else
      let sorted := sortedBreakpoints bps
      let fromIndex := jsIndexOf sorted a
      let toBp := jsGetStr sorted (fromIndex + 1)
      match toBp with
      | some t => if t = "" then mkGreaterThanOrEqual a else mkBetween a t
      | none => mkGreaterThanOrEqual a
  | none => p

/-- `Breakpoints._findNextBreakpoint`: the element after the first
occurrence of `breakpoint` in the sorted sequence; throws when that slot is
falsy (`undefined` past the end, or the empty string). An absent name has
`indexOf` equal to `-1`, so the slot consulted is index `0`. -/
def findNextBreakpoint (bps : BreakpointMap) (breakpoint : String) :
    Except String String :=
  let sorted := sortedBreakpoints bps
  match jsGetStr sorted (jsIndexOf sorted breakpoint + 1) with
  | some s =>
    if s = "" then .error ("There is no breakpoint larger than " ++ breakpoint)
    else .ok s
  | none => .error ("There is no breakpoint larger than " ++ breakpoint)

/-- `Breakpoints._createBreakpointQuery`: compiles one directive to a CSS
media-query condition string, after `at`-normalization. -/
def createBreakpointQuery (bps : BreakpointMap) (props : MediaBreakpointProps) :
    Except String String :=
  let p := normalizeProps bps props
  match propKey p with
  | some .lessThan =>
    let width := lookupWidth bps (p.lessThan.getD "")
    .ok ("(max-width:" ++ (jsSub width (.int 1)).render ++ "px)")
  | some .greaterThan =>
    match findNextBreakpoint bps (p.greaterThan.getD "") with
    | .ok nxt =>
      let width := lookupWidth bps nxt
      .ok ("(min-width:" ++ width.render ++ "px)")
    | .error e => .error e
  | some .greaterThanOrEqual =>
    let width := lookupWidth bps (p.greaterThanOrEqual.getD "")
    .ok ("(min-width:" ++ width.render ++ "px)")
  | some .between =>
    let pr := p.between.getD ("", "")
    let fromWidth := lookupWidth bps pr.1
    let toWidth := lookupWidth bps pr.2
    .ok ("(min-width:" ++ fromWidth.render ++ "px) and (max-width:" ++
      (jsSub toWidth (.int 1)).render ++ "px)")
  | _ => .error ("Unexpected breakpoint props: " ++ stringifyProps p)

/-- `Breakpoints.shouldRenderMediaQuery`: the render-admission decision.
The TS `switch` has no `default`, so an unrecognized key falls through and
the function returns `undefined`, modelled as `Except.ok none`; the
`greaterThan` arm can throw via `_findNextBreakpoint`. -/
def shouldRenderMediaQuery (bps : BreakpointMap) (props : MediaBreakpointProps)
    (onlyRenderAt : List String) : Except String (Option Bool) :=
  let p := normalizeProps bps props
  match propKey p with
  | some .lessThan =>
    let width := lookupWidth bps (p.lessThan.getD "")
    let lowestAllowedWidth := jsMin (onlyRenderAt.map (lookupWidth bps))
    .ok (some (jsLt lowestAllowedWidth width))
  | some .greaterThan =>
    match findNextBreakpoint bps (p.greaterThan.getD "") with
    | .ok nxt =>
      let width := lookupWidth bps nxt
      let highestAllowedWidth := jsMax (onlyRenderAt.map (lookupWidth bps))
      .ok (some (jsGe highestAllowedWidth width))
    | .error e => .error e
  | some .greaterThanOrEqual =>
    let width := lookupWidth bps (p.greaterThanOrEqual.getD "")
    let highestAllowedWidth := jsMax (onlyRenderAt.map (lookupWidth bps))
    .ok (some (jsGe highestAllowedWidth width))
  | some .between =>
    let pr := p.between.getD ("", "")
    let fromWidth := lookupWidth bps pr.1
    let toWidth := lookupWidth bps pr.2
    let allowedWidths := onlyRenderAt.map (lookupWidth bps)
    .ok (some (!(jsLt (jsMax allowedWidths) fromWidth ||
      jsGe (jsMin allowedWidths) toWidth)))
  | _ => .ok none

/-- `Map.prototype.set`: updates the value in place when the key is present,
otherwise appends the pair (JS `Map`s preserve insertion order). -/
def mapSet (m : List (String × String)) (k v : String) :
    List (String × String) :=
  if m.any (fun kv => kv.1 = k) then
    m.map (fun kv => if kv.1 = k then (k, v) else kv)
  else m ++ [(k, v)]

/-- `breakpointKey` for a `between` tuple: the two names joined by `-`. -/
def tupleKey (t : String × String) : String :=
  t.1 ++ "-" ++ t.2

/-- Builds the directive `{ [key]: breakpoint }` for a single-name kind. -/
def mkDirective (key : MediaBreakpointKey) (b : String) : MediaBreakpointProps :=
  match key with
  | .«at» => mkAt b
  | .lessThan => mkLessThan b
  | .greaterThan => mkGreaterThan b
  | .greaterThanOrEqual => mkGreaterThanOrEqual b
  | .between => mkBetween b b

/-- `Breakpoints._createBreakpointQueries` for a single-name kind: folds the
requested breakpoints into a map from key to compiled query; a `throw`
inside `_createBreakpointQuery` aborts the construction. -/
def createBreakpointQueriesStr (bps : BreakpointMap) (key : MediaBreakpointKey)
    (forBreakpoints : List String) : Except String (List (String × String)) :=
  forBreakpoints.foldlM
    (fun m b => do
      let q ← createBreakpointQuery bps (mkDirective key b)
      pure (mapSet m b q))
    []

/-- `Breakpoints._createBreakpointQueries` for the `between` kind, keyed by
the joined tuple. -/
def createBreakpointQueriesPair (bps : BreakpointMap)
    (forBreakpoints : List (String × String)) :
    Except String (List (String × String)) :=
  forBreakpoints.foldlM
    (fun m t => do
      let q ← createBreakpointQuery bps (mkBetween t.1 t.2)
      pure (mapSet m (tupleKey t) q))
    []

/-- `this._mediaQueries`: the five per-kind maps from operand key to
compiled query string. -/
structure MediaQueries where
  «at» : List (String × String)
  lessThan : List (String × String)
  greaterThan : List (String × String)
  greaterThanOrEqual : List (String × String)
  between : List (String × String)
  deriving DecidableEq

/-- The `Breakpoints` constructor's enumeration of `this._mediaQueries`:
`at` and `greaterThanOrEqual` over the whole sorted sequence, `lessThan`
over `slice(1)`, `greaterThan` over `slice(0, -1)`, and `between` over the
enumerated combinations. -/
def mkMediaQueries (bps : BreakpointMap) : Except String MediaQueries := do
  let atQ ← createBreakpointQueriesStr bps .«at» (sortedBreakpoints bps)
  let ltQ ← createBreakpointQueriesStr bps .lessThan
    ((sortedBreakpoints bps).drop 1)
  let gtQ ← createBreakpointQueriesStr bps .greaterThan
    (sortedBreakpoints bps).dropLast
  let gteQ ← createBreakpointQueriesStr bps .greaterThanOrEqual
    (sortedBreakpoints bps)
  let btQ ← createBreakpointQueriesPair bps (betweenCombinations bps)
  pure ⟨atQ, ltQ, gtQ, gteQ, btQ⟩

/-- Modelled from the spec: a Rule Set Entry is a (CSS class name, CSS rule
body) pair; `createRuleSet` from `src/Utils.ts` (not under `src/`) pairs the
two, so it is the constructor of this structure. -/
structure RuleSet where
  className : String
  body : String
  deriving DecidableEq

/-- Modelled from the spec: `createClassName` from `src/Utils.ts` (not under
`src/`) encodes the (kind, operand-key) pair as a class name. -/
def createClassName (kind : String) (breakpoint : String) : String :=
  "fresnel-" ++ kind ++ "-" ++ breakpoint

/-- The five maps with their `Object.entries` names, in declaration order. -/
def kindEntries (mq : MediaQueries) : List (String × List (String × String)) :=
  [("at", mq.«at»), ("lessThan", mq.lessThan), ("greaterThan", mq.greaterThan),
   ("greaterThanOrEqual", mq.greaterThanOrEqual), ("between", mq.between)]

/-- `Breakpoints.toRuleSets`: one rule set per compiled query, whose body is
the query's negation `not all and <condition>`. -/
def toRuleSets (mq : MediaQueries) : List RuleSet :=
  (kindEntries mq).foldl
    (fun acc kv =>
      acc ++ kv.2.map (fun bq =>
        RuleSet.mk (createClassName kv.1 bq.1) ("not all and " ++ bq.2)))
    []

/-- All precomputed compiled queries as (kind name, operand key, condition)
triples, in the order `toRuleSets` visits them. -/
def compiledQueries (mq : MediaQueries) : List (String × String × String) :=
  (kindEntries mq).flatMap (fun kv => kv.2.map (fun bq => (kv.1, bq.1, bq.2)))

/-- The minimum of a list of widths (meaningful for non-empty lists). -/
def minList : List Int → Int
  | [] => 0
  | w :: ws => ws.foldl min w

/-- The maximum of a list of widths (meaningful for non-empty lists). -/
def maxList : List Int → Int
  | [] => 0
  | w :: ws => ws.foldl max w

/-- All ordered pairs of list elements in which the first strictly precedes
the second, in the enumeration order of the constructor. -/
def allPairs : List String → List (String × String)
  | [] => []
  | b :: bs => bs.map (fun b2 => (b, b2)) ++ allPairs bs

/-- Stated from the spec's words, for comparison with the constructor's
enumeration: a directive is representable for a breakpoint set when query
compilation produces a condition string for it. -/
def representable (bps : BreakpointMap) (p : MediaBreakpointProps) : Bool :=
  (createBreakpointQuery bps p).toOption.isSome

/-- The number of populated directive kinds on a props value. -/
def populatedCount (p : MediaBreakpointProps) : Nat :=
  (if p.«at».isSome then 1 else 0) +
  (if p.lessThan.isSome then 1 else 0) +
  (if p.greaterThan.isSome then 1 else 0) +
  (if p.greaterThanOrEqual.isSome then 1 else 0) +
  (if p.between.isSome then 1 else 0)

/-- The spec's running example breakpoint set. -/
def exampleBps : BreakpointMap :=
  [("sm", 0), ("md", 768), ("lg", 1024)]

/-- The media-query maps the constructor builds for `exampleBps`. -/
def exampleQueries : MediaQueries :=
  ⟨[("sm", "(min-width:0px) and (max-width:767px)"),
    ("md", "(min-width:768px) and (max-width:1023px)"),
    ("lg", "(min-width:1024px)")],
   [("md", "(max-width:767px)"), ("lg", "(max-width:1023px)")],
   [("sm", "(min-width:768px)"), ("md", "(min-width:1024px)")],
   [("sm", "(min-width:0px)"), ("md", "(min-width:768px)"),
    ("lg", "(min-width:1024px)")],
   [("sm-md", "(min-width:0px) and (max-width:767px)"),
    ("sm-lg", "(min-width:0px) and (max-width:1023px)"),
    ("md-lg", "(min-width:768px) and (max-width:1023px)")]⟩

/-- C1: for every breakpoint set and breakpoint name present in it,
`_createBreakpointQuery` compiles `lessThan(b)` to
`(max-width:<width(b)-1>px)`, `greaterThanOrEqual(b)` to
`(min-width:<width(b)>px)`, `between(b1,b2)` to
`(min-width:<width(b1)>px) and (max-width:<width(b2)-1>px)`, and
`greaterThan(b)` (when `b` has a following breakpoint) to
`(min-width:<width(next(b))>px)`; on the example set `{sm:0, md:768,
lg:1024}`, `lessThan("lg")` compiles to `(max-width:1023px)`,
`greaterThanOrEqual("md")` to `(min-width:768px)`, and
`between("sm","lg")` to `(min-width:0px) and (max-width:1023px)`. -/
theorem c1_query_compilation :
    (∀ (bps : BreakpointMap) (b : String) (w : Int),
      List.lookup b bps = some w →
      createBreakpointQuery bps (mkLessThan b) =
        .ok ("(max-width:" ++ toString (w - 1) ++ "px)")) ∧
    (∀ (bps : BreakpointMap) (b : String) (w : Int),
      List.lookup b bps = some w →
      createBreakpointQuery bps (mkGreaterThanOrEqual b) =
        .ok ("(min-width:" ++ toString w ++ "px)")) ∧
    (∀ (bps : BreakpointMap) (b1 b2 : String) (w1 w2 : Int),
      List.lookup b1 bps = some w1 → List.lookup b2 bps = some w2 →
      createBreakpointQuery bps (mkBetween b1 b2) =
        .ok ("(min-width:" ++ toString w1 ++ "px) and (max-width:" ++
          toString (w2 - 1) ++ "px)")) ∧
    (∀ (bps : BreakpointMap) (b nb : String) (i w : Int),
      jsIndexOf (sortedBreakpoints bps) b = i →
      jsGetStr (sortedBreakpoints bps) (i + 1) = some nb →
      nb ≠ "" →
      List.lookup nb bps = some w →
      createBreakpointQuery bps (mkGreaterThan b) =
        .ok ("(min-width:" ++ toString w ++ "px)")) ∧
    createBreakpointQuery exampleBps (mkLessThan "lg") =
      .ok "(max-width:1023px)" ∧
    createBreakpointQuery exampleBps (mkGreaterThanOrEqual "md") =
      .ok "(min-width:768px)" ∧
    createBreakpointQuery exampleBps (mkBetween "sm" "lg") =
      .ok "(min-width:0px) and (max-width:1023px)" := by
  refine ⟨?_, ?_, ?_, ?_, ?_, ?_, ?_⟩
  · intro bps b w h
    simp [createBreakpointQuery, normalizeProps, mkLessThan, propKey,
      lookupWidth, h, jsSub, JsVal.render]
  · intro bps b w h
    simp [createBreakpointQuery, normalizeProps, mkGreaterThanOrEqual, propKey,
      lookupWidth, h, JsVal.render]
  · intro bps b1 b2 w1 w2 h1 h2
    simp [createBreakpointQuery, normalizeProps, mkBetween, propKey,
      lookupWidth, h1, h2, jsSub, JsVal.render]
  · intro bps b nb i w h1 h2 h3 h4
    simp [createBreakpointQuery, normalizeProps, mkGreaterThan, propKey,
      findNextBreakpoint, h1, h2, h3, lookupWidth, h4, JsVal.render]
  · rfl
  · rfl
  · rfl

theorem jsMin2_int (a w : Int) : jsMin2 (.int a) (.int w) = .int (min a w) := by
  show (if jsLt (.int a) (.int w) then JsVal.int a else .int w) = .int (min a w)
  by_cases h : a < w
  · simp [jsLt, h, min_eq_left h.le]
  · simp [jsLt, h, min_eq_right (not_lt.mp h)]

theorem jsMax2_int (a w : Int) : jsMax2 (.int a) (.int w) = .int (max a w) := by
  show (if jsLt (.int a) (.int w) then JsVal.int w else .int a) = .int (max a w)
  by_cases h : a < w
  · simp [jsLt, h, max_eq_right h.le]
  · simp [jsLt, h, max_eq_left (not_lt.mp h)]

theorem foldl_jsMin2_int (ws : List Int) : ∀ a : Int,
    List.foldl jsMin2 (.int a) (ws.map .int) = .int (ws.foldl min a) := by
  induction ws with
  | nil => intro a; rfl
  | cons w ws ih =>
    intro a
    simp only [List.map_cons, List.foldl_cons, jsMin2_int]
    exact ih _

theorem foldl_jsMax2_int (ws : List Int) : ∀ a : Int,
    List.foldl jsMax2 (.int a) (ws.map .int) = .int (ws.foldl max a) := by
  induction ws with
  | nil => intro a; rfl
  | cons w ws ih =>
    intro a
    simp only [List.map_cons, List.foldl_cons, jsMax2_int]
    exact ih _

theorem jsMin_int_cons (w : Int) (ws : List Int) :
    jsMin (JsVal.int w :: ws.map .int) = .int (minList (w :: ws)) := by
  simp only [jsMin, List.foldl_cons]
  have h1 : jsMin2 .posInf (.int w) = .int w := rfl
  rw [h1, foldl_jsMin2_int]
  rfl

theorem jsMax_int_cons (w : Int) (ws : List Int) :
    jsMax (JsVal.int w :: ws.map .int) = .int (maxList (w :: ws)) := by
  simp only [jsMax, List.foldl_cons]
  have h1 : jsMax2 .negInf (.int w) = .int w := rfl
  rw [h1, foldl_jsMax2_int]
  rfl

/-- C2: for every breakpoint set and non-empty list of known breakpoint
names, `shouldRenderMediaQuery` admits `lessThan(b)` iff the minimum
available width is strictly below `width(b)`; `greaterThan(b)` (with a
following breakpoint) iff the maximum available width is at least
`width(next(b))`; `greaterThanOrEqual(b)` iff the maximum available width
is at least `width(b)`; and `between(b1,b2)` iff not (the maximum available
width is below `width(b1)` or the minimum available width is at least
`width(b2)`). -/
theorem c2_render_admission (bps : BreakpointMap) (onlyRenderAt : List String)
    (ws : List Int) (hmap : onlyRenderAt.map (lookupWidth bps) = ws.map .int)
    (hne : ws ≠ []) :
    (∀ (b : String) (wb : Int), List.lookup b bps = some wb →
      shouldRenderMediaQuery bps (mkLessThan b) onlyRenderAt =
        .ok (some (decide (minList ws < wb)))) ∧
    (∀ (b nb : String) (i w : Int),
      jsIndexOf (sortedBreakpoints bps) b = i →
      jsGetStr (sortedBreakpoints bps) (i + 1) = some nb →
      nb ≠ "" →
      List.lookup nb bps = some w →
      shouldRenderMediaQuery bps (mkGreaterThan b) onlyRenderAt =
        .ok (some (decide (w ≤ maxList ws)))) ∧
    (∀ (b : String) (wb : Int), List.lookup b bps = some wb →
      shouldRenderMediaQuery bps (mkGreaterThanOrEqual b) onlyRenderAt =
        .ok (some (decide (wb ≤ maxList ws)))) ∧
    (∀ (b1 b2 : String) (w1 w2 : Int),
      List.lookup b1 bps = some w1 → List.lookup b2 bps = some w2 →
      shouldRenderMediaQuery bps (mkBetween b1 b2) onlyRenderAt =
        .ok (some (!(decide (maxList ws < w1) ||
          decide (w2 ≤ minList ws))))) := by
  cases ws with
  | nil => exact absurd rfl hne
  | cons w ws' =>
    refine ⟨?_, ?_, ?_, ?_⟩
    · intro b wb hb
      simp [shouldRenderMediaQuery, normalizeProps, mkLessThan, propKey,
        lookupWidth, hb, hmap, jsMin_int_cons, jsLt]
    · intro b nb i wn h1 h2 h3 h4
      simp [shouldRenderMediaQuery, normalizeProps, mkGreaterThan, propKey,
        findNextBreakpoint, h1, h2, h3, lookupWidth, h4, hmap,
        jsMax_int_cons, jsGe]
    · intro b wb hb
      simp [shouldRenderMediaQuery, normalizeProps, mkGreaterThanOrEqual,
        propKey, lookupWidth, hb, hmap, jsMax_int_cons, jsGe]
    · intro b1 b2 w1 w2 h1 h2
      simp [shouldRenderMediaQuery, normalizeProps, mkBetween, propKey,
        lookupWidth, h1, h2, hmap, jsMin_int_cons, jsMax_int_cons, jsLt, jsGe]

/-- Witness for C2: the spec's render-admission examples with the available
names `["sm", "lg"]` (widths 0 and 1024) on the example set. -/
theorem c2_render_admission_witness :
    shouldRenderMediaQuery exampleBps (mkLessThan "md") ["sm", "lg"] =
      .ok (some (decide (minList [0, 1024] < (768 : Int)))) ∧
    shouldRenderMediaQuery exampleBps (mkGreaterThan "sm") ["sm", "lg"] =
      .ok (some (decide ((768 : Int) ≤ maxList [0, 1024]))) ∧
    shouldRenderMediaQuery exampleBps (mkGreaterThanOrEqual "lg") ["sm", "lg"] =
      .ok (some (decide ((1024 : Int) ≤ maxList [0, 1024]))) ∧
    shouldRenderMediaQuery exampleBps (mkBetween "sm" "md") ["sm", "lg"] =
      .ok (some (!(decide (maxList [0, 1024] < (0 : Int)) ||
        decide ((768 : Int) ≤ minList [0, 1024])))) :=
  have h := c2_render_admission exampleBps ["sm", "lg"] [0, 1024]
    (by decide) (by decide)
  ⟨h.1 "md" 768 (by decide),
   h.2.1 "sm" "md" 0 768 (by decide) (by decide) (by decide) (by decide),
   h.2.2.1 "lg" 1024 (by decide),
   h.2.2.2 "sm" "md" 0 768 (by decide) (by decide)⟩

theorem normalizeProps_idem (bps : BreakpointMap) (p : MediaBreakpointProps) :
    normalizeProps bps (normalizeProps bps p) = normalizeProps bps p := by
  rcases hp : p.«at» with _ | a
  · simp [normalizeProps, hp]
  · by_cases ha : a = ""
    · simp [normalizeProps, hp, ha]
    · rcases ht : jsGetStr (sortedBreakpoints bps)
          (jsIndexOf (sortedBreakpoints bps) a + 1) with _ | t
      · simp [normalizeProps, hp, ha, ht, mkGreaterThanOrEqual]
      · by_cases he : t = ""
        · simp [normalizeProps, hp, ha, ht, he, mkGreaterThanOrEqual]
        · simp [normalizeProps, hp, ha, ht, he, mkBetween]

/-- C3: `at(b)` with a following breakpoint compiles to exactly the same
string as `between(b, next(b))`, and `at` of the last breakpoint compiles
to exactly the same string as `greaterThanOrEqual` of it; the same
normalization is applied in `shouldRenderMediaQuery`, whose result on any
directive equals its result on the normalized directive. -/
theorem c3_at_normalization :
    (∀ (bps : BreakpointMap) (b nb : String) (i : Int),
      b ≠ "" →
      jsIndexOf (sortedBreakpoints bps) b = i →
      jsGetStr (sortedBreakpoints bps) (i + 1) = some nb →
      nb ≠ "" →
      createBreakpointQuery bps (mkAt b) =
        createBreakpointQuery bps (mkBetween b nb)) ∧
    (∀ (bps : BreakpointMap) (b : String) (i : Int),
      b ≠ "" →
      jsIndexOf (sortedBreakpoints bps) b = i →
      jsGetStr (sortedBreakpoints bps) (i + 1) = none →
      createBreakpointQuery bps (mkAt b) =
        createBreakpointQuery bps (mkGreaterThanOrEqual b)) ∧
    (∀ (bps : BreakpointMap) (p : MediaBreakpointProps)
      (onlyRenderAt : List String),
      shouldRenderMediaQuery bps p onlyRenderAt =
        shouldRenderMediaQuery bps (normalizeProps bps p) onlyRenderAt) := by
  refine ⟨?_, ?_, ?_⟩
  · intro bps b nb i hb h1 h2 h3
    have hn : normalizeProps bps (mkAt b) = mkBetween b nb := by
      simp [normalizeProps, mkAt, hb, h1, h2, h3]
    have h4 : normalizeProps bps (mkBetween b nb) = mkBetween b nb := rfl
    simp only [createBreakpointQuery, hn, h4]
  · intro bps b i hb h1 h2
    have hn : normalizeProps bps (mkAt b) = mkGreaterThanOrEqual b := by
      simp [normalizeProps, mkAt, hb, h1, h2]
    have h4 : normalizeProps bps (mkGreaterThanOrEqual b) =
        mkGreaterThanOrEqual b := rfl
    simp only [createBreakpointQuery, hn, h4]
  · intro bps p onlyRenderAt
    simp only [shouldRenderMediaQuery, normalizeProps_idem]

/-- Witness for C3: on the example set, `at("sm")` compiles like
`between("sm","md")` and `at("lg")` like `greaterThanOrEqual("lg")`. -/
theorem c3_at_normalization_witness :
    createBreakpointQuery exampleBps (mkAt "sm") =
      createBreakpointQuery exampleBps (mkBetween "sm" "md") ∧
    createBreakpointQuery exampleBps (mkAt "lg") =
      createBreakpointQuery exampleBps (mkGreaterThanOrEqual "lg") :=
  ⟨c3_at_normalization.1 exampleBps "sm" "md" 0 (by decide) (by decide)
      (by decide) (by decide),
   c3_at_normalization.2.1 exampleBps "lg" 2 (by decide) (by decide)
      (by decide)⟩

theorem jsIndexOf_of_nodup : ∀ (l : List String), l.Nodup →
    ∀ (k : Nat) (b : String), l[k]? = some b → jsIndexOf l b = (k : Int) := by
  intro l
  induction l with
  | nil => intro _ k b h; simp at h
  | cons x xs ih =>
    intro hnd k b h
    cases k with
    | zero =>
      simp at h
      simp [jsIndexOf, h]
    | succ j =>
      simp at h
      have hbm : b ∈ xs := List.getElem?_mem h
      have hx : ¬(x = b) := by
        intro he
        subst he
        exact (List.nodup_cons.mp hnd).1 hbm
      have ihr := ih (List.nodup_cons.mp hnd).2 j b h
      have hj : ¬((j : Int) = -1) := by omega
      simp only [jsIndexOf, hx, if_false, ihr, if_neg hj]
      omega

theorem jsGetStr_none_of_ge (l : List String) (k : Nat) (hk : l.length ≤ k) :
    jsGetStr l (k : Int) = none := by
  simp [jsGetStr]
  omega

/-- C4: requesting `greaterThan` of the largest breakpoint fails, in query
compilation and in `shouldRenderMediaQuery` alike, with an explicit error
naming the offending breakpoint, and compilation never produces a query
string for it. -/
theorem c4_greaterThan_largest_errors (bps : BreakpointMap) (b : String)
    (hnd : (sortedBreakpoints bps).Nodup)
    (hb : (sortedBreakpoints bps)[(sortedBreakpoints bps).length - 1]? =
      some b) :
    createBreakpointQuery bps (mkGreaterThan b) =
      .error ("There is no breakpoint larger than " ++ b) ∧
    ∀ onlyRenderAt : List String,
      shouldRenderMediaQuery bps (mkGreaterThan b) onlyRenderAt =
        .error ("There is no breakpoint larger than " ++ b) := by
  have hlen : 1 ≤ (sortedBreakpoints bps).length := by
    by_contra hc
    rw [List.getElem?_eq_none (by omega)] at hb
    exact Option.noConfusion hb
  have hidx := jsIndexOf_of_nodup _ hnd _ b hb
  have hcast : jsIndexOf (sortedBreakpoints bps) b + 1 =
      ((sortedBreakpoints bps).length : Int) := by
    rw [hidx]; omega
  have hget : jsGetStr (sortedBreakpoints bps)
      (jsIndexOf (sortedBreakpoints bps) b + 1) = none := by
    rw [hcast]
    exact jsGetStr_none_of_ge (sortedBreakpoints bps)
      (sortedBreakpoints bps).length (le_refl _)
  have hfind : findNextBreakpoint bps b =
      .error ("There is no breakpoint larger than " ++ b) := by
    simp [findNextBreakpoint, hget]
  constructor
  · simp [createBreakpointQuery, normalizeProps, mkGreaterThan, propKey, hfind]
  · intro onlyRenderAt
    simp [shouldRenderMediaQuery, normalizeProps, mkGreaterThan, propKey, hfind]

/-- Witness for C4: `greaterThan("lg")` fails on the example set (the spec's
`greaterThan("lg") must fail` example). -/
theorem c4_greaterThan_largest_errors_witness :
    createBreakpointQuery exampleBps (mkGreaterThan "lg") =
      .error ("There is no breakpoint larger than " ++ "lg") ∧
    shouldRenderMediaQuery exampleBps (mkGreaterThan "lg") ["sm"] =
      .error ("There is no breakpoint larger than " ++ "lg") :=
  have h := c4_greaterThan_largest_errors exampleBps "lg" (by decide) (by decide)
  ⟨h.1, h.2 ["sm"]⟩

/-- C10: with an empty `onlyRenderAt` list, `shouldRenderMediaQuery` does
not fail for any well-formed directive over known breakpoint names
(`greaterThan` of the largest excluded): `Math.min()` is `Infinity` and
`Math.max()` is `-Infinity`, every admission comparison is false, and the
result is deterministically `false`. -/
theorem c10_empty_onlyRenderAt (bps : BreakpointMap) :
    (∀ (b : String) (wb : Int), List.lookup b bps = some wb →
      shouldRenderMediaQuery bps (mkLessThan b) [] = .ok (some false)) ∧
    (∀ (b nb : String) (i : Int),
      jsIndexOf (sortedBreakpoints bps) b = i →
      jsGetStr (sortedBreakpoints bps) (i + 1) = some nb →
      nb ≠ "" →
      shouldRenderMediaQuery bps (mkGreaterThan b) [] = .ok (some false)) ∧
    (∀ (b : String) (wb : Int), List.lookup b bps = some wb →
      shouldRenderMediaQuery bps (mkGreaterThanOrEqual b) [] =
        .ok (some false)) ∧
    (∀ (b1 b2 : String) (w1 w2 : Int),
      List.lookup b1 bps = some w1 → List.lookup b2 bps = some w2 →
      shouldRenderMediaQuery bps (mkBetween b1 b2) [] = .ok (some false)) ∧
    (∀ (b : String) (wb : Int), b ≠ "" → List.lookup b bps = some wb →
      shouldRenderMediaQuery bps (mkAt b) [] = .ok (some false)) := by
  refine ⟨?_, ?_, ?_, ?_, ?_⟩
  · intro b wb hb
    simp [shouldRenderMediaQuery, normalizeProps, mkLessThan, propKey,
      lookupWidth, hb, jsMin, jsLt]
  · intro b nb i h1 h2 h3
    rcases hl : List.lookup nb bps with _ | wn <;>
      simp [shouldRenderMediaQuery, normalizeProps, mkGreaterThan, propKey,
        findNextBreakpoint, h1, h2, h3, lookupWidth, hl, jsMax, jsGe]
  · intro b wb hb
    simp [shouldRenderMediaQuery, normalizeProps, mkGreaterThanOrEqual,
      propKey, lookupWidth, hb, jsMax, jsGe]
  · intro b1 b2 w1 w2 h1 h2
    simp [shouldRenderMediaQuery, normalizeProps, mkBetween, propKey,
      lookupWidth, h1, h2, jsMin, jsMax, jsLt, jsGe]
  · intro b wb hbne hb
    rcases ht : jsGetStr (sortedBreakpoints bps)
        (jsIndexOf (sortedBreakpoints bps) b + 1) with _ | t
    · have hn : normalizeProps bps (mkAt b) = mkGreaterThanOrEqual b := by
        simp [normalizeProps, mkAt, hbne, ht]
      rw [shouldRenderMediaQuery, hn]
      simp [shouldRenderMediaQuery, normalizeProps, mkGreaterThanOrEqual,
        propKey, lookupWidth, hb, jsMax, jsGe]
    · by_cases he : t = ""
      · have hn : normalizeProps bps (mkAt b) = mkGreaterThanOrEqual b := by
          simp [normalizeProps, mkAt, hbne, ht, he]
        rw [shouldRenderMediaQuery, hn]
        simp [shouldRenderMediaQuery, normalizeProps, mkGreaterThanOrEqual,
          propKey, lookupWidth, hb, jsMax, jsGe]
      · have hn : normalizeProps bps (mkAt b) = mkBetween b t := by
          simp [normalizeProps, mkAt, hbne, ht, he]
        rw [shouldRenderMediaQuery, hn]
        simp [shouldRenderMediaQuery, normalizeProps, mkBetween, propKey,
          lookupWidth, hb, jsMin, jsMax, jsLt, jsGe]

/-- Witness for C10: all five directive kinds on the example set with an
empty render list. -/
theorem c10_empty_onlyRenderAt_witness :
    shouldRenderMediaQuery exampleBps (mkLessThan "md") [] = .ok (some false) ∧
    shouldRenderMediaQuery exampleBps (mkGreaterThan "sm") [] =
      .ok (some false) ∧
    shouldRenderMediaQuery exampleBps (mkGreaterThanOrEqual "lg") [] =
      .ok (some false) ∧
    shouldRenderMediaQuery exampleBps (mkBetween "sm" "lg") [] =
      .ok (some false) ∧
    shouldRenderMediaQuery exampleBps (mkAt "md") [] = .ok (some false) :=
  have h := c10_empty_onlyRenderAt exampleBps
  ⟨h.1 "md" 768 (by decide),
   h.2.1 "sm" "md" 0 (by decide) (by decide) (by decide),
   h.2.2.1 "lg" 1024 (by decide),
   h.2.2.2.1 "sm" "lg" 0 1024 (by decide) (by decide),
   h.2.2.2.2 "md" 768 (by decide) (by decide)⟩

theorem jsLt_undef (x : JsVal) : jsLt x .undefined = false := by
  cases x <;> rfl

theorem jsGe_undef (x : JsVal) : jsGe x .undefined = false := by
  cases x <;> rfl

/-- C8 counterexample: on the example set, the unknown name `"xl"` is NOT
surfaced as an error: compilation silently returns `NaN`- and
`undefined`-bearing query strings, `greaterThan("xl")` silently resolves to
the smallest breakpoint's width, and `shouldRenderMediaQuery` silently
returns a boolean. -/
theorem c8_unknown_name_counterexample :
    createBreakpointQuery exampleBps (mkLessThan "xl") =
      .ok "(max-width:NaNpx)" ∧
    createBreakpointQuery exampleBps (mkGreaterThanOrEqual "xl") =
      .ok "(min-width:undefinedpx)" ∧
    createBreakpointQuery exampleBps (mkGreaterThan "xl") =
      .ok "(min-width:0px)" ∧
    shouldRenderMediaQuery exampleBps (mkLessThan "xl") ["sm"] =
      .ok (some false) :=
  ⟨rfl, rfl, rfl, rfl⟩

/-- C8 amended: a directive operand absent from the breakpoint set is
silently coerced, never surfaced: `lessThan` compiles to
`(max-width:NaNpx)`, `greaterThanOrEqual` to `(min-width:undefinedpx)`,
`shouldRenderMediaQuery` returns `false` for both (comparison against the
undefined width), and `greaterThan` of an unknown name silently resolves
`next` to the first sorted breakpoint and compiles its width. -/
theorem c8_unknown_name_amended :
    (∀ (bps : BreakpointMap) (b : String), List.lookup b bps = none →
      createBreakpointQuery bps (mkLessThan b) = .ok "(max-width:NaNpx)") ∧
    (∀ (bps : BreakpointMap) (b : String), List.lookup b bps = none →
      createBreakpointQuery bps (mkGreaterThanOrEqual b) =
        .ok "(min-width:undefinedpx)") ∧
    (∀ (bps : BreakpointMap) (b : String) (ws : List String),
      List.lookup b bps = none →
      shouldRenderMediaQuery bps (mkLessThan b) ws = .ok (some false)) ∧
    (∀ (bps : BreakpointMap) (b : String) (ws : List String),
      List.lookup b bps = none →
      shouldRenderMediaQuery bps (mkGreaterThanOrEqual b) ws =
        .ok (some false)) ∧
    (∀ (bps : BreakpointMap) (b s : String) (w : Int),
      jsIndexOf (sortedBreakpoints bps) b = -1 →
      jsGetStr (sortedBreakpoints bps) 0 = some s → s ≠ "" →
      List.lookup s bps = some w →
      createBreakpointQuery bps (mkGreaterThan b) =
        .ok ("(min-width:" ++ toString w ++ "px)")) := by
  refine ⟨?_, ?_, ?_, ?_, ?_⟩
  · intro bps b h
    simp [createBreakpointQuery, normalizeProps, mkLessThan, propKey,
      lookupWidth, h, jsSub, JsVal.render]
  · intro bps b h
    simp [createBreakpointQuery, normalizeProps, mkGreaterThanOrEqual, propKey,
      lookupWidth, h, JsVal.render]
  · intro bps b ws h
    simp [shouldRenderMediaQuery, normalizeProps, mkLessThan, propKey,
      lookupWidth, h, jsLt_undef]
  · intro bps b ws h
    simp [shouldRenderMediaQuery, normalizeProps, mkGreaterThanOrEqual,
      propKey, lookupWidth, h, jsGe_undef]
  · intro bps b s w h1 h2 h3 h4
    have h0 : jsIndexOf (sortedBreakpoints bps) b + 1 = 0 := by rw [h1]; ring
    simp [createBreakpointQuery, normalizeProps, mkGreaterThan, propKey,
      findNextBreakpoint, h0, h2, h3, lookupWidth, h4, JsVal.render]

/-- Witness for the amended C8: the unknown name `"xl"` on the example
set. -/
theorem c8_unknown_name_amended_witness :
    createBreakpointQuery exampleBps (mkLessThan "xl") =
      .ok "(max-width:NaNpx)" ∧
    createBreakpointQuery exampleBps (mkGreaterThanOrEqual "xl") =
      .ok "(min-width:undefinedpx)" ∧
    shouldRenderMediaQuery exampleBps (mkLessThan "xl") ["sm", "lg"] =
      .ok (some false) ∧
    shouldRenderMediaQuery exampleBps (mkGreaterThanOrEqual "xl") ["sm"] =
      .ok (some false) ∧
    createBreakpointQuery exampleBps (mkGreaterThan "xl") =
      .ok ("(min-width:" ++ toString (0 : Int) ++ "px)") :=
  ⟨c8_unknown_name_amended.1 exampleBps "xl" (by decide),
   c8_unknown_name_amended.2.1 exampleBps "xl" (by decide),
   c8_unknown_name_amended.2.2.1 exampleBps "xl" ["sm", "lg"] (by decide),
   c8_unknown_name_amended.2.2.2.1 exampleBps "xl" ["sm"] (by decide),
   c8_unknown_name_amended.2.2.2.2 exampleBps "xl" "sm" 0 (by decide)
     (by decide) (by decide) (by decide)⟩

/-- C9 counterexample: a directive with TWO populated kinds, `at("sm")` and
`lessThan("md")`, does not fail: `_normalizeProps` rewrites it from its
truthy `at` field before any validation, so compilation silently returns
the `at`-normalized query and ignores the other kind. -/
theorem c9_invalid_shape_counterexample :
    createBreakpointQuery exampleBps ⟨some "sm", some "md", none, none, none⟩ =
      .ok "(min-width:0px) and (max-width:767px)" ∧
    populatedCount ⟨some "sm", some "md", none, none, none⟩ = 2 :=
  ⟨rfl, rfl⟩

/-- C9 amended: a directive with zero populated kinds fails with the
descriptive `Unexpected breakpoint props` error, and one with two or more
populated kinds fails with that error only when `at` is not among them;
when a non-empty `at` is populated, compilation silently proceeds with the
`at`-normalized directive, ignoring every other populated kind. -/
theorem c9_invalid_shape_amended :
    (∀ bps : BreakpointMap,
      createBreakpointQuery bps ⟨none, none, none, none, none⟩ =
        .error ("Unexpected breakpoint props: \x7b\x7d")) ∧
    (∀ (bps : BreakpointMap) (p : MediaBreakpointProps),
      2 ≤ populatedCount p → p.«at» = none →
      createBreakpointQuery bps p =
        .error ("Unexpected breakpoint props: " ++ stringifyProps p)) ∧
    (∀ (bps : BreakpointMap) (p : MediaBreakpointProps) (a : String),
      p.«at» = some a → a ≠ "" →
      createBreakpointQuery bps p = createBreakpointQuery bps (mkAt a)) := by
  refine ⟨?_, ?_, ?_⟩
  · intro bps
    rfl
  · intro bps p h2 hat
    rcases p with ⟨a, l, g, ge, bt⟩
    simp only at hat
    subst hat
    cases l <;> cases g <;> cases ge <;> cases bt <;>
      first
        | (exfalso; simp [populatedCount] at h2; done)
        | simp [createBreakpointQuery, normalizeProps, propKey]
  · intro bps p a hat ha
    have hn : normalizeProps bps p = normalizeProps bps (mkAt a) := by
      simp [normalizeProps, mkAt, hat, ha]
    simp only [createBreakpointQuery, hn]

/-- Witness for the amended C9: the all-empty directive, a
`lessThan`+`greaterThan` directive, and the `at`+`lessThan` directive of
the counterexample, all on the example set. -/
theorem c9_invalid_shape_amended_witness :
    createBreakpointQuery exampleBps ⟨none, none, none, none, none⟩ =
      .error ("Unexpected breakpoint props: \x7b\x7d") ∧
    createBreakpointQuery exampleBps ⟨none, some "sm", some "md", none, none⟩ =
      .error ("Unexpected breakpoint props: " ++
        stringifyProps ⟨none, some "sm", some "md", none, none⟩) ∧
    createBreakpointQuery exampleBps ⟨some "sm", some "md", none, none, none⟩ =
      createBreakpointQuery exampleBps (mkAt "sm") :=
  ⟨c9_invalid_shape_amended.1 exampleBps,
   c9_invalid_shape_amended.2.1 exampleBps
     ⟨none, some "sm", some "md", none, none⟩ (by decide) (by decide),
   c9_invalid_shape_amended.2.2 exampleBps
     ⟨some "sm", some "md", none, none, none⟩ "sm" (by decide) (by decide)⟩

theorem foldl_append {α β : Type} (g : α → List β) :
    ∀ (l : List α) (init : List β),
    l.foldl (fun acc x => acc ++ g x) init = init ++ (l.map g).flatten := by
  intro l
  induction l with
  | nil => intro init; simp
  | cons x xs ih => intro init; simp [ih]

/-- C6: `toRuleSets` produces exactly one rule-set entry per precomputed
compiled query across the five kinds (its length is the sum of the five map
sizes), and every entry's body is `not all and ` concatenated with the
corresponding compiled condition. -/
theorem c6_rule_export (mq : MediaQueries) :
    toRuleSets mq = (compiledQueries mq).map
      (fun t => RuleSet.mk (createClassName t.1 t.2.1)
        ("not all and " ++ t.2.2)) ∧
    (toRuleSets mq).length = (compiledQueries mq).length ∧
    (toRuleSets mq).length =
      mq.«at».length + mq.lessThan.length + mq.greaterThan.length +
        mq.greaterThanOrEqual.length + mq.between.length ∧
    ∀ r ∈ toRuleSets mq, ∃ t ∈ compiledQueries mq,
      r.body = "not all and " ++ t.2.2 := by
  have h1 : toRuleSets mq = (compiledQueries mq).map
      (fun t => RuleSet.mk (createClassName t.1 t.2.1)
        ("not all and " ++ t.2.2)) := by
    simp only [toRuleSets, kindEntries, compiledQueries, List.foldl_cons,
      List.foldl_nil, List.flatMap_cons, List.flatMap_nil, List.map_append,
      List.map_map, List.nil_append, List.append_nil, List.append_assoc]
    rfl
  refine ⟨h1, ?_, ?_, ?_⟩
  · rw [h1, List.length_map]
  · rw [h1, List.length_map]
    simp [compiledQueries, kindEntries]
    omega
  · rw [h1]
    intro r hr
    rcases List.mem_map.mp hr with ⟨t, ht, rfl⟩
    exact ⟨t, ht, rfl⟩

/-- Witness for C6: the membership clause applied to the single entry of a
one-query registry. -/
theorem c6_rule_export_witness :
    ∃ t ∈ compiledQueries ⟨[("sm", "(min-width:0px)")], [], [], [], []⟩,
      (RuleSet.mk (createClassName "at" "sm")
        "not all and (min-width:0px)").body = "not all and " ++ t.2.2 :=
  (c6_rule_export ⟨[("sm", "(min-width:0px)")], [], [], [], []⟩).2.2.2
    (RuleSet.mk (createClassName "at" "sm") "not all and (min-width:0px)")
    (by decide)

theorem lookup_of_mem_nodup : ∀ (l : List (String × Int)) (a : String) (w : Int),
    (l.map Prod.fst).Nodup → (a, w) ∈ l → List.lookup a l = some w := by
  intro l
  induction l with
  | nil => intro a w _ h; simp at h
  | cons x xs ih =>
    intro a w hnd hm
    rw [List.map_cons, List.nodup_cons] at hnd
    rcases List.mem_cons.mp hm with he | hm2
    · rw [← he]
      simp [List.lookup]
    · have ha : a ∈ xs.map Prod.fst :=
        List.mem_map.mpr ⟨(a, w), hm2, rfl⟩
      rcases x with ⟨k, v⟩
      have hne : a ≠ k := by
        intro he
        subst he
        exact hnd.1 ha
      simp only [List.lookup, beq_eq_false_iff_ne.mpr hne]
      exact ih a w hnd.2 hm2

/-- C7: for a breakpoint set with distinct names and pairwise-distinct
widths (and at least two breakpoints), the sorted breakpoint sequence has
the same length as the set, is a permutation of its names containing each
exactly once, and its associated widths are strictly ascending; each sorted
pair carries exactly the width the set assigns to its name. -/
theorem c7_sorted_sequence (bps : BreakpointMap)
    (hn : 2 ≤ bps.length)
    (hk : (bps.map Prod.fst).Nodup)
    (hw : (bps.map Prod.snd).Nodup) :
    (sortedBreakpoints bps).length = bps.length ∧
    (sortedBreakpoints bps).Perm (bps.map Prod.fst) ∧
    (∀ name ∈ bps.map Prod.fst, (sortedBreakpoints bps).count name = 1) ∧
    ((sortedPairs bps).map Prod.snd).Pairwise (· < ·) ∧
    (∀ p ∈ sortedPairs bps, List.lookup p.1 bps = some p.2) := by
  have hperm : (sortedPairs bps).Perm bps := List.perm_insertionSort widthLE bps
  have hpermName : (sortedBreakpoints bps).Perm (bps.map Prod.fst) :=
    hperm.map Prod.fst
  refine ⟨?_, hpermName, ?_, ?_, ?_⟩
  · rw [hpermName.length_eq, List.length_map]
  · intro name hname
    rw [hpermName.count_eq]
    exact List.count_eq_one_of_mem hk hname
  · have hsorted : (sortedPairs bps).Sorted widthLE :=
      List.sorted_insertionSort widthLE bps
    have hle : ((sortedPairs bps).map Prod.snd).Pairwise (· ≤ ·) := by
      rw [List.pairwise_map]
      exact hsorted
    have hnd2 : ((sortedPairs bps).map Prod.snd).Nodup :=
      (hperm.map Prod.snd).nodup_iff.mpr hw
    exact (hle.and hnd2).imp (fun h => lt_of_le_of_ne h.1 h.2)
  · intro p hp
    rcases p with ⟨a, w⟩
    exact lookup_of_mem_nodup bps a w hk (hperm.subset hp)

/-- Witness for C7: the example set's sorted sequence. -/
theorem c7_sorted_sequence_witness :
    (sortedBreakpoints exampleBps).length = exampleBps.length ∧
    (sortedBreakpoints exampleBps).count "md" = 1 ∧
    ((sortedPairs exampleBps).map Prod.snd).Pairwise (· < ·) :=
  have h := c7_sorted_sequence exampleBps (by decide) (by decide) (by decide)
  ⟨h.1, h.2.2.1 "md" (by decide), h.2.2.2.1⟩

theorem mapSet_of_not_mem (m : List (String × String)) (b q : String)
    (h : ¬ b ∈ m.map Prod.fst) : mapSet m b q = m ++ [(b, q)] := by
  rw [mapSet, if_neg]
  intro hc
  rcases List.any_eq_true.mp hc with ⟨kv, hkv, he⟩
  exact h (List.mem_map.mpr ⟨kv, hkv, (of_decide_eq_true he).symm ▸ rfl⟩)

theorem foldlM_mapSet_keys {α : Type} (key : α → String)
    (f : α → Except String String) :
    ∀ (items : List α) (acc m : List (String × String)),
    (acc.map Prod.fst ++ items.map key).Nodup →
    List.foldlM (fun m x => do
      let q ← f x
      pure (mapSet m (key x) q)) acc items = .ok m →
    m.map Prod.fst = acc.map Prod.fst ++ items.map key := by
  intro items
  induction items with
  | nil =>
    intro acc m _ h
    simp only [List.foldlM_nil] at h
    cases h
    simp
  | cons x xs ih =>
    intro acc m hnd hfold
    rw [List.foldlM_cons] at hfold
    rcases hq : f x with e | q
    · rw [hq] at hfold
      simp [Bind.bind, Except.bind] at hfold
    · rw [hq] at hfold
      simp only [Bind.bind, Except.bind] at hfold
      have hnotin : ¬ key x ∈ acc.map Prod.fst := by
        intro hmem
        have hdis := (List.nodup_append.mp hnd).2.2
        exact hdis hmem (by simp)
      rw [mapSet_of_not_mem _ _ _ hnotin] at hfold
      have hnd2 : ((acc ++ [(key x, q)]).map Prod.fst ++ xs.map key).Nodup := by
        simpa [List.map_append] using hnd
      have hres := ih (acc ++ [(key x, q)]) m hnd2 hfold
      simpa [List.map_append] using hres

theorem map_enumFrom_succ {β : Type} (g : Nat × String → β) :
    ∀ (xs : List String) (n : Nat),
    (xs.enumFrom (n + 1)).map g =
      (xs.enumFrom n).map (fun p => g (p.1 + 1, p.2)) := by
  intro xs
  induction xs with
  | nil => intro n; rfl
  | cons x xs ih =>
    intro n
    show g (n + 1, x) :: (xs.enumFrom (n + 2)).map g = _
    rw [ih (n + 1)]
    rfl

theorem betweenCombinations_eq_allPairs (bps : BreakpointMap) :
    betweenCombinations bps = allPairs (sortedBreakpoints bps) := by
  rw [betweenCombinations]
  rw [foldl_append]
  rw [List.nil_append]
  generalize sortedBreakpoints bps = l
  induction l with
  | nil => rfl
  | cons x xs ih =>
    cases xs with
    | nil => rfl
    | cons y ys =>
      rw [List.dropLast_cons₂, List.enum_cons, List.map_cons]
      rw [map_enumFrom_succ]
      show (((x :: y :: ys).drop 1).map (fun b2 => (x, b2)) ::
        ((y :: ys).dropLast.enumFrom 0).map
          (fun p => ((x :: y :: ys).drop (p.1 + 1 + 1)).map
            (fun b2 => (p.2, b2)))).flatten = _
      have hdrop : ∀ p : Nat × String,
          ((x :: y :: ys).drop (p.1 + 1 + 1)).map (fun b2 => (p.2, b2)) =
            ((y :: ys).drop (p.1 + 1)).map (fun b2 => (p.2, b2)) := by
        intro p
        rfl
      rw [List.flatten_cons]
      have hfun : (((y :: ys).dropLast.enumFrom 0).map
          (fun p => ((x :: y :: ys).drop (p.1 + 1 + 1)).map
            (fun b2 => (p.2, b2)))) =
          (((y :: ys).dropLast.enum).map
          (fun p => ((y :: ys).drop (p.1 + 1)).map
            (fun b2 => (p.2, b2)))) := by
        apply List.map_congr_left
        intro p _
        exact hdrop p
      rw [hfun, ih]
      rfl

theorem allPairs_length : ∀ l : List String,
    (allPairs l).length = Nat.choose l.length 2 := by
  intro l
  induction l with
  | nil => rfl
  | cons x xs ih =>
    simp only [allPairs, List.length_append, List.length_map, ih,
      List.length_cons, Nat.choose_succ_succ, Nat.choose_one_right]

theorem allPairs_indices : ∀ l : List String, ∀ pr ∈ allPairs l,
    ∃ i j : Nat, i < j ∧ l[i]? = some pr.1 ∧ l[j]? = some pr.2 := by
  intro l
  induction l with
  | nil => intro pr h; simp [allPairs] at h
  | cons x xs ih =>
    intro pr h
    rw [allPairs] at h
    rcases List.mem_append.mp h with h1 | h2
    · rcases List.mem_map.mp h1 with ⟨b2, hb2, rfl⟩
      rcases List.mem_iff_getElem?.mp hb2 with ⟨j, hj⟩
      exact ⟨0, j + 1, by omega, by simp, by simpa using hj⟩
    · rcases ih pr h2 with ⟨i, j, hij, hi, hj⟩
      exact ⟨i + 1, j + 1, by omega, by simpa using hi, by simpa using hj⟩

/-- C5 counterexample: `lessThan("sm")` is representable on the example set
(its direct compilation succeeds), yet the constructed `lessThan` map has
no entry for the smallest breakpoint `"sm"` — its keys are exactly
`["md", "lg"]`. -/
theorem c5_enumeration_counterexample :
    representable exampleBps (mkLessThan "sm") = true ∧
    (mkMediaQueries exampleBps).map (fun mq => mq.lessThan.map Prod.fst) =
      .ok ["md", "lg"] ∧
    (mkMediaQueries exampleBps).map
      (fun mq => decide ("sm" ∈ mq.lessThan.map Prod.fst)) = .ok false :=
  ⟨rfl, rfl, rfl⟩

/-- C5 amended: construction enumerates `at` and `greaterThanOrEqual` over
every breakpoint name, `lessThan` over every name except the smallest,
`greaterThan` over every name except the largest, and `between` over
exactly the `choose(n,2)` sorted index pairs `i < j`, never a pair whose
first operand does not precede its second. -/
theorem c5_enumeration_amended (bps : BreakpointMap) (mq : MediaQueries)
    (hk : (sortedBreakpoints bps).Nodup)
    (hbk : ((betweenCombinations bps).map tupleKey).Nodup)
    (hmk : mkMediaQueries bps = .ok mq) :
    mq.«at».map Prod.fst = sortedBreakpoints bps ∧
    mq.greaterThanOrEqual.map Prod.fst = sortedBreakpoints bps ∧
    mq.lessThan.map Prod.fst = (sortedBreakpoints bps).drop 1 ∧
    mq.greaterThan.map Prod.fst = (sortedBreakpoints bps).dropLast ∧
    mq.between.map Prod.fst = (betweenCombinations bps).map tupleKey ∧
    (betweenCombinations bps).length =
      Nat.choose (sortedBreakpoints bps).length 2 ∧
    ∀ pr ∈ betweenCombinations bps, ∃ i j : Nat, i < j ∧
      (sortedBreakpoints bps)[i]? = some pr.1 ∧
      (sortedBreakpoints bps)[j]? = some pr.2 := by
  rcases hq1 : createBreakpointQueriesStr bps .«at» (sortedBreakpoints bps)
    with e | atQ
  · simp only [mkMediaQueries, hq1, Bind.bind, Except.bind] at hmk
    exact Except.noConfusion hmk
  rcases hq2 : createBreakpointQueriesStr bps .lessThan
      ((sortedBreakpoints bps).drop 1) with e | ltQ
  · simp only [mkMediaQueries, hq1, hq2, Bind.bind, Except.bind] at hmk
    exact Except.noConfusion hmk
  rcases hq3 : createBreakpointQueriesStr bps .greaterThan
      (sortedBreakpoints bps).dropLast with e | gtQ
  · simp only [mkMediaQueries, hq1, hq2, hq3, Bind.bind, Except.bind] at hmk
    exact Except.noConfusion hmk
  rcases hq4 : createBreakpointQueriesStr bps .greaterThanOrEqual
      (sortedBreakpoints bps) with e | gteQ
  · simp only [mkMediaQueries, hq1, hq2, hq3, hq4, Bind.bind, Except.bind]
      at hmk
    exact Except.noConfusion hmk
  rcases hq5 : createBreakpointQueriesPair bps (betweenCombinations bps)
    with e | btQ
  · simp only [mkMediaQueries, hq1, hq2, hq3, hq4, hq5, Bind.bind,
      Except.bind] at hmk
    exact Except.noConfusion hmk
  have hmq : mq = ⟨atQ, ltQ, gtQ, gteQ, btQ⟩ := by
    simp only [mkMediaQueries, hq1, hq2, hq3, hq4, hq5, Bind.bind,
      Except.bind, Pure.pure, Except.pure, Except.ok.injEq] at hmk
    exact hmk.symm
  subst hmq
  have hdrop : ((sortedBreakpoints bps).drop 1).Nodup :=
    hk.sublist (List.drop_sublist 1 _)
  have hdlast : (sortedBreakpoints bps).dropLast.Nodup :=
    hk.sublist (List.dropLast_sublist _)
  refine ⟨?_, ?_, ?_, ?_, ?_, ?_, ?_⟩
  · have := foldlM_mapSet_keys (fun b => b)
      (fun b => createBreakpointQuery bps (mkDirective .«at» b))
      (sortedBreakpoints bps) [] atQ (by simpa using hk) hq1
    simpa using this
  · have := foldlM_mapSet_keys (fun b => b)
      (fun b => createBreakpointQuery bps (mkDirective .greaterThanOrEqual b))
      (sortedBreakpoints bps) [] gteQ (by simpa using hk) hq4
    simpa using this
  · have := foldlM_mapSet_keys (fun b => b)
      (fun b => createBreakpointQuery bps (mkDirective .lessThan b))
      ((sortedBreakpoints bps).drop 1) [] ltQ (by simpa using hdrop) hq2
    simpa using this
  · have := foldlM_mapSet_keys (fun b => b)
      (fun b => createBreakpointQuery bps (mkDirective .greaterThan b))
      (sortedBreakpoints bps).dropLast [] gtQ (by simpa using hdlast) hq3
    simpa using this
  · have := foldlM_mapSet_keys tupleKey
      (fun t => createBreakpointQuery bps (mkBetween t.1 t.2))
      (betweenCombinations bps) [] btQ (by simpa using hbk) hq5
    simpa using this
  · rw [betweenCombinations_eq_allPairs]
    exact allPairs_length _
  · rw [betweenCombinations_eq_allPairs]
    exact allPairs_indices _

/-- Witness for the amended C5: the full enumeration characterization on
the example set, whose constructed maps are `exampleQueries`. -/
theorem c5_enumeration_amended_witness :
    exampleQueries.«at».map Prod.fst = sortedBreakpoints exampleBps ∧
    exampleQueries.greaterThanOrEqual.map Prod.fst =
      sortedBreakpoints exampleBps ∧
    exampleQueries.lessThan.map Prod.fst =
      (sortedBreakpoints exampleBps).drop 1 ∧
    exampleQueries.greaterThan.map Prod.fst =
      (sortedBreakpoints exampleBps).dropLast ∧
    exampleQueries.between.map Prod.fst =
      (betweenCombinations exampleBps).map tupleKey ∧
    (betweenCombinations exampleBps).length =
      Nat.choose (sortedBreakpoints exampleBps).length 2 ∧
    ∀ pr ∈ betweenCombinations exampleBps, ∃ i j : Nat, i < j ∧
      (sortedBreakpoints exampleBps)[i]? = some pr.1 ∧
      (sortedBreakpoints exampleBps)[j]? = some pr.2 :=
  c5_enumeration_amended exampleBps exampleQueries (by decide) (by decide) rfl

/-- Witness for C1: each general clause instantiated on the example set. -/
theorem c1_query_compilation_witness :
    createBreakpointQuery exampleBps (mkLessThan "md") =
      .ok ("(max-width:" ++ toString ((768 : Int) - 1) ++ "px)") ∧
    createBreakpointQuery exampleBps (mkGreaterThanOrEqual "lg") =
      .ok ("(min-width:" ++ toString (1024 : Int) ++ "px)") ∧
    createBreakpointQuery exampleBps (mkBetween "sm" "md") =
      .ok ("(min-width:" ++ toString (0 : Int) ++ "px) and (max-width:" ++
        toString ((768 : Int) - 1) ++ "px)") ∧
    createBreakpointQuery exampleBps (mkGreaterThan "md") =
      .ok ("(min-width:" ++ toString (1024 : Int) ++ "px)") :=
  ⟨c1_query_compilation.1 exampleBps "md" 768 (by decide),
   c1_query_compilation.2.1 exampleBps "lg" 1024 (by decide),
   c1_query_compilation.2.2.1 exampleBps "sm" "md" 0 768 (by decide) (by decide),
   c1_query_compilation.2.2.2.1 exampleBps "md" "lg" 1 1024 (by decide)
     (by decide) (by decide) (by decide)⟩

end Fresnel
